import Mathlib

/-!
Verification of the contact-form submission pipeline of the repository
DhruvilThummar/DhruvilThummar.github.io.

The repository ships two concrete handlers for the same contact form:

* `functions/api/contact.js` — the Cloudflare Pages function: validation,
  sanitization, then delivery via the Resend API (primary, when an API key
  is configured) with a MailChannels fallback.  Modelled below by
  `validateCF`, `orchestrateCF`, `onRequestPostCF` and `onRequestCF`.
* `api/contact.js` — the Node/SMTP (nodemailer) variant with a honeypot
  check and a log-instead-of-send path when SMTP is unconfigured.
  Modelled below by `validateSMTP` and `handlerSMTP`.

JavaScript strings are modelled as lists of code points (`JStr`); the
network is modelled by an oracle giving the outcome of each provider call,
and each handler returns its HTTP-like response together with the trace of
provider send attempts it performed.
-/

set_option maxRecDepth 40000

namespace ContactForm

/-- A JavaScript string: a list of code points. -/
abbrev JStr := List Nat

/-- Concrete string literals as code-point lists. -/
def str (s : String) : JStr := s.toList.map Char.toNat

/-- The JavaScript whitespace class used by `String.prototype.trim` and
`\s`: tab, LF, VT, FF, CR, space, NBSP and the Unicode space separators. -/
def isWs (c : Nat) : Bool :=
  c = 9 ∨ c = 10 ∨ c = 11 ∨ c = 12 ∨ c = 13 ∨ c = 32 ∨ c = 160 ∨
  c = 0x1680 ∨ (0x2000 ≤ c ∧ c ≤ 0x200A) ∨ c = 0x2028 ∨ c = 0x2029 ∨
  c = 0x202F ∨ c = 0x205F ∨ c = 0x3000 ∨ c = 0xFEFF

/-- Left part of `String.prototype.trim`. -/
def ltrim (s : JStr) : JStr := s.dropWhile isWs

/-- Right part of `String.prototype.trim`: drop trailing whitespace. -/
def rtrim : JStr → JStr
  | [] => []
  | c :: rest =>
    match rtrim rest with
    | [] => if isWs c then [] else [c]
    | r => c :: r

/-- `String.prototype.trim`. -/
def trim (s : JStr) : JStr := rtrim (ltrim s)

/-- One code point of `String.prototype.toLowerCase` (ASCII range; the
fields this is applied to are validated against an ASCII pattern). -/
def toLowerC (c : Nat) : Nat := if 65 ≤ c ∧ c ≤ 90 then c + 32 else c

/-- `String.prototype.toLowerCase`. -/
def toLower (s : JStr) : JStr := s.map toLowerC

/-- Boolean membership of a code point in a string. -/
def memB (c : Nat) : JStr → Bool
  | [] => false
  | d :: rest => d = c || memB c rest

/-- `needle` is a prefix of `hay` (`String.prototype.startsWith`). -/
def startsWith : JStr → JStr → Bool
  | [], _ => true
  | _ :: _, [] => false
  | p :: ps, c :: cs => p = c && startsWith ps cs

/-- `String.prototype.includes`: `pat` occurs inside the string. -/
def containsSub (pat : JStr) : JStr → Bool
  | [] => pat.isEmpty
  | c :: rest => startsWith pat (c :: rest) || containsSub pat rest

/-- `value || defaultString` on an optional string (JS `||` takes the
default when the value is absent or the empty string). -/
def jsOr (v : Option JStr) (d : JStr) : JStr :=
  match v with
  | some s => if s.isEmpty then d else s
  | none => d

/-- Chain of `a || b || ...` over optional environment strings: the first
present, non-empty value. -/
def firstTruthy : List (Option JStr) → Option JStr
  | [] => none
  | none :: rest => firstTruthy rest
  | some s :: rest => if s.isEmpty then firstTruthy rest else some s

/-- A (present) env value is truthy: non-empty. -/
def truthy : Option JStr → Bool
  | none => false
  | some s => !s.isEmpty

/-- Helper of `String.prototype.split(sep)`: accumulates the current
segment (reversed) while scanning. -/
def jsSplitAux (t : Nat) (acc : JStr) : JStr → List JStr
  | [] => [acc.reverse]
  | c :: rest =>
    if c = t then acc.reverse :: jsSplitAux t [] rest
    else jsSplitAux t (c :: acc) rest

/-- `String.prototype.split` on a one-character separator. -/
def jsSplit (t : Nat) (s : JStr) : List JStr := jsSplitAux t [] s

/-! ### The email pattern

`EMAIL_REGEX = /^[A-Z0-9._%+-]+@[A-Z0-9.-]+\.[A-Z]{2,}$/i` (identical in
both handlers).  A string matches iff it splits as
`local ++ "@" ++ domain ++ "." ++ tld` with a non-empty all-local-chars
`local`, a non-empty all-domain-chars `domain` and an all-letters `tld` of
length at least 2.  Since `local` cannot contain `@`, the split is at the
first `@`; since the `tld` cannot contain `.`, its dot is the last dot of
the tail. -/

/-- Split at the first occurrence of `t` (both sides exclude `t`);
`none` when `t` does not occur. -/
def splitAtFirst (t : Nat) : JStr → Option (JStr × JStr)
  | [] => none
  | c :: rest =>
    if c = t then some ([], rest)
    else
      match splitAtFirst t rest with
      | none => none
      | some (a, b) => some (c :: a, b)

def isAlphaC (c : Nat) : Bool := (65 ≤ c ∧ c ≤ 90) ∨ (97 ≤ c ∧ c ≤ 122)

def isDigitC (c : Nat) : Bool := 48 ≤ c ∧ c ≤ 57

/-- `[A-Z0-9._%+-]` (case-insensitive). -/
def isLocalChar (c : Nat) : Bool :=
  isAlphaC c || isDigitC c || c = 46 || c = 95 || c = 37 || c = 43 || c = 45

/-- `[A-Z0-9.-]` (case-insensitive). -/
def isDomainChar (c : Nat) : Bool :=
  isAlphaC c || isDigitC c || c = 46 || c = 45

/-- `EMAIL_REGEX.test` of both handlers. -/
def emailMatch (s : JStr) : Bool :=
  match splitAtFirst 64 s with
  | none => false
  | some (lp, rest) =>
    !lp.isEmpty && lp.all isLocalChar &&
    (match splitAtFirst 46 rest.reverse with
     | none => false
     | some (revTld, revDom) =>
       let tld := revTld.reverse
       let dom := revDom.reverse
       !dom.isEmpty && dom.all isDomainChar &&
       decide (2 ≤ tld.length) && tld.all isAlphaC)

/-! ### HTML escaping (`escapeHtml`, identical in both handlers) -/

/-- Replacement of one character by `escapeHtml`s character map
(ampersand, less-than, greater-than, double quote and apostrophe become entities, everything else is kept). -/
def escChar (c : Nat) : JStr :=
  if c = 38 then [38, 97, 109, 112, 59]            -- &amp;
  else if c = 60 then [38, 108, 116, 59]           -- &lt;
  else if c = 62 then [38, 103, 116, 59]           -- &gt;
  else if c = 34 then [38, 113, 117, 111, 116, 59] -- &quot;
  else if c = 39 then [38, 35, 48, 51, 57, 59]     -- &#039;
  else [c]

/-- `escapeHtml`: replace each of the five HTML metacharacters by its entity. -/
def escapeHtml : JStr → JStr
  | [] => []
  | c :: rest => escChar c ++ escapeHtml rest

/-- The string contains one of the five HTML metacharacters (codes 38, 60, 62, 34, 39). -/
def hasMeta (s : JStr) : Bool :=
  s.any (fun c => c = 38 ∨ c = 60 ∨ c = 62 ∨ c = 34 ∨ c = 39)

/-- A string in which every HTML metacharacter appears only in escaped
form: no raw less-than, greater-than, quote or apostrophe at all, and every ampersand opens one of the five
entities `escapeHtml` produces. -/
inductive Escaped : JStr → Prop
  | nil : Escaped []
  | amp {l} : Escaped l → Escaped (38 :: 97 :: 109 :: 112 :: 59 :: l)
  | ltE {l} : Escaped l → Escaped (38 :: 108 :: 116 :: 59 :: l)
  | gtE {l} : Escaped l → Escaped (38 :: 103 :: 116 :: 59 :: l)
  | quotE {l} : Escaped l → Escaped (38 :: 113 :: 117 :: 111 :: 116 :: 59 :: l)
  | aposE {l} : Escaped l → Escaped (38 :: 35 :: 48 :: 51 :: 57 :: 59 :: l)
  | chr {c l} : c ≠ 38 → c ≠ 60 → c ≠ 62 → c ≠ 34 → c ≠ 39 →
      Escaped l → Escaped (c :: l)

/-! ### `stripNewlines` (SMTP handler only) -/

/-- Replace every maximal run of CR/LF by a single space
(`replace` of the `[\r\n]+` regex by one space); the flag records whether the previous
character belonged to a run. -/
def collapseNL (prev : Bool) : JStr → JStr
  | [] => []
  | c :: rest =>
    if c = 13 ∨ c = 10 then
      (if prev then [] else [32]) ++ collapseNL true rest
    else c :: collapseNL false rest

/-- `stripNewlines`: replace every CR/LF run by one space, then trim. -/
def stripNewlines (s : JStr) : JStr := trim (collapseNL false s)

/-! ### Common data model -/

/-- Which backend performed a send attempt. -/
inductive ProviderKind
  | resend
  | mailchannels
  | smtp
deriving DecidableEq

/-- Which of the two outbound messages an attempt delivered. -/
inductive MsgRole
  | owner
  | sender
deriving DecidableEq

/-- One provider send attempt (one outbound network call). -/
structure Attempt where
  provider : ProviderKind
  role : MsgRole
  rcpt : JStr
deriving DecidableEq

/-- Body of the JSON response (`null` for the 204 preflight answer). -/
inductive RespBody
  | noBody
  | jsonOk (message : JStr)
  | jsonErr (error : JStr)
deriving DecidableEq

/-- An HTTP-like response. -/
structure Resp where
  status : Nat
  body : RespBody
deriving DecidableEq

/-- A parsed JSON request body: each field a string or absent. -/
structure Body where
  name : Option JStr
  email : Option JStr
  subject : Option JStr
  message : Option JStr
  company : Option JStr
  website : Option JStr
deriving DecidableEq

/-- The sanitized submission (cleanName/cleanEmail/cleanSubject/cleanMessage). -/
structure Clean where
  name : JStr
  email : JStr
  subject : JStr
  message : JStr
deriving DecidableEq

/-- Request metadata interpolated into the owner notification. -/
structure ReqMeta where
  ip : JStr
  ua : JStr
  referer : JStr
deriving DecidableEq

/-! ### The Cloudflare Pages handler (`functions/api/contact.js`) -/

/-- The environment of the Pages function (`context.env`); each variable a
string or unset. -/
structure EnvCF where
  RESEND_API_KEY : Option JStr
  resend_api_key : Option JStr
  CONTACT_FROM : Option JStr
  contact_from : Option JStr
  CONTACT_TO : Option JStr
  contact_to : Option JStr
  NOTIFY_EMAIL : Option JStr
  notify_email : Option JStr
  CONTACT_CC : Option JStr
deriving DecidableEq

/-- Outcome of each of the (at most four) network calls the Pages function
can make in one request: the owner and sender sends on Resend and on
MailChannels.  `resendOwnerErr` is the error detail a failed Resend owner
call reports; `mcOwnerStatusText` the `statusText` of a failed MailChannels
owner call. -/
structure OracleCF where
  resendOwnerOk : Bool
  resendOwnerErr : JStr
  resendSenderOk : Bool
  mcOwnerOk : Bool
  mcOwnerStatusText : JStr
  mcSenderOk : Bool
deriving DecidableEq

/-- `RESEND_API_KEY = env.RESEND_API_KEY || env.resend_api_key`. -/
def resendKeyOf (env : EnvCF) : Option JStr :=
  firstTruthy [env.RESEND_API_KEY, env.resend_api_key]

/-- `FROM_EMAIL = env.CONTACT_FROM || env.contact_from || "onboarding@resend.dev"`. -/
def fromEmailOf (env : EnvCF) : JStr :=
  (firstTruthy [env.CONTACT_FROM, env.contact_from]).getD (str "onboarding@resend.dev")

/-- `OWNER_EMAIL = env.CONTACT_TO || env.contact_to || env.NOTIFY_EMAIL ||
env.notify_email || "dhruvilthummar1303@gmail.com"`. -/
def ownerEmailOf (env : EnvCF) : JStr :=
  (firstTruthy [env.CONTACT_TO, env.contact_to, env.NOTIFY_EMAIL, env.notify_email]).getD
    (str "dhruvilthummar1303@gmail.com")

/-- `CC_EMAILS = (env.CONTACT_CC || "").split(",").map(s => s.trim()).filter(Boolean)`. -/
def ccEmailsOf (env : EnvCF) : List JStr :=
  ((jsSplit 44 (jsOr env.CONTACT_CC [])).map trim).filter (fun s => !s.isEmpty)

/-- The sanitized subject of the Pages function:
`(subject || "Portfolio Contact Form").trim().substring(0, 200)`. -/
def cleanSubjectCF (subject : Option JStr) : JStr :=
  (trim (jsOr subject (str "Portfolio Contact Form"))).take 200

/-- STEP 1–3 of `onRequestPost`: body parsing (a `none` body stands for a
JSON parse failure), field validation in source order, sanitization.
Returns the error response or the `Clean` submission. -/
def validateCF : Option Body → Except Resp Clean
  | none => .error ⟨400, .jsonErr (str "Invalid JSON format. Please check your request body.")⟩
  | some b =>
    match b.name with
    | none => .error ⟨400, .jsonErr (str "Name is required and must be at least 2 characters")⟩
    | some n =>
      if (trim n).length < 2 then
        .error ⟨400, .jsonErr (str "Name is required and must be at least 2 characters")⟩
      else
        match b.email with
        | none => .error ⟨400, .jsonErr (str "Email address is invalid or too long")⟩
        | some e =>
          if e.isEmpty ∨ 254 < e.length then
            .error ⟨400, .jsonErr (str "Email address is invalid or too long")⟩
          else if !emailMatch (toLower (trim e)) then
            .error ⟨400, .jsonErr (str "Email address format is invalid")⟩
          else
            match b.message with
            | none => .error ⟨400, .jsonErr (str "Message is required and must be at least 10 characters")⟩
            | some m =>
              if (trim m).length < 10 then
                .error ⟨400, .jsonErr (str "Message is required and must be at least 10 characters")⟩
              else
                .ok ⟨(trim n).take 100, toLower (trim e),
                     cleanSubjectCF b.subject, (trim m).take 5000⟩

/-- Result of one `sendTransactionalVia…` call: overall flag and the error
detail it reports upward. -/
structure SendOutcome where
  ok : Bool
  error : JStr
deriving DecidableEq

/-- `sendTransactionalViaResend`: owner notification first (critical); on
its success the sender confirmation is attempted best-effort and the call
reports `ok: true` regardless of that second outcome. -/
def sendTransactionalViaResend (o : OracleCF) (c : Clean) (OWNER : JStr) :
    SendOutcome × List Attempt :=
  let ownerAtt : Attempt := ⟨.resend, .owner, OWNER⟩
  if !o.resendOwnerOk then (⟨false, o.resendOwnerErr⟩, [ownerAtt])
  else (⟨true, []⟩, [ownerAtt, ⟨.resend, .sender, c.email⟩])

/-- The domain part of the MailChannels sender check:
`fromDomain = FROM_EMAIL.split("@")[1]` must be present, non-empty, not
`localhost` and not contain `127.0.0.1`. -/
def mcDomainOk (FROM : JStr) : Bool :=
  match (jsSplit 64 FROM).get? 1 with
  | none => false
  | some d => !d.isEmpty && !(decide (d = str "localhost")) &&
      !containsSub (str "127.0.0.1") d

/-- `sendTransactionalViaMailChannels`: sender-address checks, then the
owner notification (critical; failure reported with the response
`statusText`), then the best-effort sender confirmation whose outcome does
not change the reported result. -/
def sendTransactionalViaMailChannels (o : OracleCF) (c : Clean)
    (FROM OWNER : JStr) (_cc : List JStr) : SendOutcome × List Attempt :=
  if FROM.isEmpty then (⟨false, str "Sender email not configured"⟩, [])
  else if !mcDomainOk FROM then (⟨false, str "Invalid sender email domain"⟩, [])
  else
    let ownerAtt : Attempt := ⟨.mailchannels, .owner, OWNER⟩
    if !o.mcOwnerOk then
      (⟨false, str "Email service error: " ++ o.mcOwnerStatusText ++
          str ". Please try again later."⟩, [ownerAtt])
    else (⟨true, []⟩, [ownerAtt, ⟨.mailchannels, .sender, c.email⟩])

/-- STEP 4–7 of `onRequestPost`: load the configuration, check the owner
address, send via Resend when a key is configured (falling back to
MailChannels on failure), otherwise via MailChannels alone. -/
def orchestrateCF (env : EnvCF) (o : OracleCF) (c : Clean) : Resp × List Attempt :=
  let OWNER := ownerEmailOf env
  if OWNER.isEmpty then
    (⟨500, .jsonErr (str "Contact service is not properly configured. Please contact the site administrator.")⟩, [])
  else
    match resendKeyOf env with
    | some _ =>
      let r1 := sendTransactionalViaResend o c OWNER
      if r1.1.ok then
        (⟨200, .jsonOk (str "Message received! Check your email for confirmation.")⟩, r1.2)
      else
        let r2 := sendTransactionalViaMailChannels o c (fromEmailOf env) OWNER (ccEmailsOf env)
        if r2.1.ok then
          (⟨200, .jsonOk (str "Message received! Check your email for confirmation.")⟩, r1.2 ++ r2.2)
        else
          (⟨502, .jsonErr (str "Email delivery failed: " ++
              (if r2.1.error.isEmpty then str "Unknown error" else r2.1.error))⟩,
           r1.2 ++ r2.2)
    | none =>
      let r := sendTransactionalViaMailChannels o c (fromEmailOf env) OWNER (ccEmailsOf env)
      if !r.1.ok then
        (⟨502, .jsonErr (str "Email delivery failed: " ++ r.1.error)⟩, r.2)
      else
        (⟨200, .jsonOk (str "Message received! Check your email for confirmation.")⟩, r.2)

/-- `onRequestPost`: validation then orchestration; a validation or parse
failure is returned before any provider call. -/
def onRequestPostCF (env : EnvCF) (o : OracleCF) (b : Option Body) :
    Resp × List Attempt :=
  match validateCF b with
  | .error r => (r, [])
  | .ok c => orchestrateCF env o c

/-- `onRequest`: method dispatch — POST handled, OPTIONS answered 204 with
no body, GET and every other method answered 405. -/
def onRequestCF (env : EnvCF) (o : OracleCF) (method : JStr) (b : Option Body) :
    Resp × List Attempt :=
  if method = str "POST" then onRequestPostCF env o b
  else if method = str "OPTIONS" then (⟨204, .noBody⟩, [])
  else if method = str "GET" then
    (⟨405, .jsonErr (str "Method not allowed. Please use POST to submit the contact form.")⟩, [])
  else
    (⟨405, .jsonErr (str "Method " ++ method ++ str " not allowed")⟩, [])

/-! ### The message composer (`buildOwnerHtml` / `buildSenderHtml`)

The HTML templates are fixed strings with interpolation slots; the slots
holding user data all apply `escapeHtml` to a sanitized field.  The
composer is modelled as the fixed template chunks (constants containing no
user data) interleaved with the interpolated values, in source order. -/

/-- Interleave template chunks with interpolated values:
`t0 ++ v0 ++ t1 ++ v1 ++ …`. -/
def composeHtml : List JStr → List JStr → JStr
  | [], [] => []
  | [], v :: vs => v ++ composeHtml [] vs
  | t :: ts, [] => t ++ composeHtml ts []
  | t :: ts, v :: vs => t ++ v ++ composeHtml ts vs

/-- `firstWord(text) = (text || "").split(/\s+/)[0] || "there"`. -/
def firstWord (s : JStr) : JStr :=
  let w := s.takeWhile (fun c => !isWs c)
  if w.isEmpty then str "there" else w

/-- The interpolated values of `buildOwnerHtml`, in source order: name,
email (link target and text), subject, client IP, user agent, referer,
message, and the email of the reply hint.  (The date and year slots carry no
user data.) -/
def ownerHtmlVals (c : Clean) (m : ReqMeta) : List JStr :=
  [escapeHtml c.name, escapeHtml c.email, escapeHtml c.email,
   escapeHtml c.subject, escapeHtml m.ip, escapeHtml m.ua,
   escapeHtml m.referer, escapeHtml c.message, escapeHtml c.email]

/-- The interpolated values of `buildSenderHtml`, in source order: first
name, subject, message. -/
def senderHtmlVals (c : Clean) : List JStr :=
  [escapeHtml (firstWord c.name), escapeHtml c.subject, escapeHtml c.message]

/-- `buildOwnerHtml` with its fixed template chunks abstracted. -/
def buildOwnerHtml (chunks : List JStr) (c : Clean) (m : ReqMeta) : JStr :=
  composeHtml chunks (ownerHtmlVals c m)

/-- `buildSenderHtml` with its fixed template chunks abstracted. -/
def buildSenderHtml (chunks : List JStr) (c : Clean) : JStr :=
  composeHtml chunks (senderHtmlVals c)

/-! ### The message composer of the SMTP handler

The SMTP handler inlines its two HTML bodies (`ownerMailOptions.html`,
`senderMailOptions.html`): fixed template strings with interpolation
slots.  The name, subject and message slots apply `escapeHtml`; the three
email slots of the owner body interpolate the sanitized email RAW (it has
passed the email pattern, whose character classes contain no HTML
metacharacter). -/

/-- The first name used by the SMTP confirmation body:
`cleanName.split(" ")[0]` (split on the single space character). -/
def firstWordSMTP (s : JStr) : JStr := (jsSplit 32 s).headD []

/-- The interpolated values of the SMTP owner body, in source order:
escaped name, raw email (mailto link target and text), escaped subject,
escaped message, raw email again in the reply hint.  (The date slots
carry no user data.) -/
def ownerHtmlValsSMTP (c : Clean) : List JStr :=
  [escapeHtml c.name, c.email, c.email, escapeHtml c.subject,
   escapeHtml c.message, c.email]

/-- The interpolated values of the SMTP confirmation body, in source
order: escaped first name, escaped subject, escaped message. -/
def senderHtmlValsSMTP (c : Clean) : List JStr :=
  [escapeHtml (firstWordSMTP c.name), escapeHtml c.subject, escapeHtml c.message]

/-- The SMTP owner body with its fixed template chunks abstracted. -/
def buildOwnerHtmlSMTP (chunks : List JStr) (c : Clean) : JStr :=
  composeHtml chunks (ownerHtmlValsSMTP c)

/-- The SMTP confirmation body with its fixed template chunks abstracted. -/
def buildSenderHtmlSMTP (chunks : List JStr) (c : Clean) : JStr :=
  composeHtml chunks (senderHtmlValsSMTP c)

/-! ### The Node/SMTP handler (`api/contact.js`) -/

/-- The environment the SMTP handler reads (`process.env`). -/
structure EnvSMTP where
  SMTP_HOST : Option JStr
  SMTP_USER : Option JStr
  SMTP_PASS : Option JStr
  SMTP_FROM : Option JStr
  NOTIFY_EMAIL : Option JStr
  SMTP_VERIFY : Option JStr
deriving DecidableEq

/-- Outcome of the SMTP calls: whether `transporter.verify()` (only run
when `SMTP_VERIFY` is the string `true`) and each of the two `sendMail` calls
reject.  A rejection is caught by the catch block of the handler. -/
structure OracleSMTP where
  verifyThrows : Bool
  ownerThrows : Bool
  senderThrows : Bool
deriving DecidableEq

/-- The honeypot value:
the `company` field when it is a string, else the `website` field when it is a string, else the empty string. -/
def trapOf (b : Body) : JStr :=
  match b.company with
  | some s => s
  | none =>
    match b.website with
    | some s => s
    | none => []

/-- `hasSmtp = SMTP_HOST && SMTP_USER && SMTP_PASS`. -/
def hasSmtpOf (env : EnvSMTP) : Bool :=
  truthy env.SMTP_HOST && truthy env.SMTP_USER && truthy env.SMTP_PASS

/-- The sanitized subject of the SMTP handler:
`stripNewlines` of the subject (or the default `Portfolio Contact Form`), truncated to 200. -/
def cleanSubjectSMTP (subject : Option JStr) : JStr :=
  (stripNewlines (jsOr subject (str "Portfolio Contact Form"))).take 200

/-- Field validation and sanitization of the SMTP handler, in source
order: name, email presence, message, then the length and pattern of
the sanitized email, then subject and message sanitization. -/
def validateSMTP (b : Body) : Except Resp Clean :=
  match b.name with
  | none => .error ⟨400, .jsonErr (str "Name must be at least 2 characters")⟩
  | some n =>
    if (trim n).length < 2 then
      .error ⟨400, .jsonErr (str "Name must be at least 2 characters")⟩
    else
      match b.email with
      | none => .error ⟨400, .jsonErr (str "Invalid email address")⟩
      | some e =>
        if e.isEmpty then .error ⟨400, .jsonErr (str "Invalid email address")⟩
        else
          match b.message with
          | none => .error ⟨400, .jsonErr (str "Message must be at least 10 characters")⟩
          | some m =>
            if (trim m).length < 10 then
              .error ⟨400, .jsonErr (str "Message must be at least 10 characters")⟩
            else
              if 254 < (toLower (trim e)).length ∨ !emailMatch (toLower (trim e)) then
                .error ⟨400, .jsonErr (str "Invalid email address")⟩
              else
                .ok ⟨(trim n).take 100, toLower (trim e),
                     cleanSubjectSMTP b.subject, (trim m).take 5000⟩

/-- The SMTP handler (`module.exports`): method gate, honeypot, validation,
log-only path when SMTP is unconfigured, otherwise the two sequential
`sendMail` calls inside one `try` whose `catch` answers 500. -/
def handlerSMTP (env : EnvSMTP) (o : OracleSMTP) (method : JStr) (b : Body) :
    Resp × List Attempt :=
  if !(decide (method = str "POST")) then
    (⟨405, .jsonErr (str "Method not allowed. Use POST.")⟩, [])
  else if !(trim (trapOf b)).isEmpty then
    (⟨200, .jsonOk (str "Message received.")⟩, [])
  else
    match validateSMTP b with
    | .error r => (r, [])
    | .ok c =>
      if !hasSmtpOf env then
        (⟨200, .jsonOk (str "Message logged (SMTP not configured)")⟩, [])
      else if env.SMTP_VERIFY = some (str "true") ∧ o.verifyThrows then
        (⟨500, .jsonErr (str "Failed to send message. Please try again later.")⟩, [])
      else
        let OWNER := jsOr env.NOTIFY_EMAIL (str "official@dhruvilthummar.me")
        let ownerAtt : Attempt := ⟨.smtp, .owner, OWNER⟩
        if o.ownerThrows then
          (⟨500, .jsonErr (str "Failed to send message. Please try again later.")⟩, [ownerAtt])
        else
          let senderAtt : Attempt := ⟨.smtp, .sender, c.email⟩
          if o.senderThrows then
            (⟨500, .jsonErr (str "Failed to send message. Please try again later.")⟩,
             [ownerAtt, senderAtt])
          else
            (⟨200, .jsonOk (str "Emails sent successfully! Check your inbox for confirmation.")⟩,
             [ownerAtt, senderAtt])

/-! ### Derived counters and helpers for the theorems -/

/-- Replace the honeypot fields of a body. -/
def withTrap (b : Body) (t : Option JStr) : Body :=
  { b with company := t, website := t }

/-- The attempt is an owner-message send on the MailChannels fallback. -/
def isMcOwner (a : Attempt) : Bool :=
  match a.provider, a.role with
  | .mailchannels, .owner => true
  | _, _ => false

/-- The attempt is a sender-confirmation send. -/
def isSender (a : Attempt) : Bool :=
  match a.role with
  | .sender => true
  | .owner => false

/-- Number of owner-message attempts on the MailChannels fallback in a
trace. -/
def mcOwnerCount (tr : List Attempt) : Nat := (tr.filter isMcOwner).length

/-- Number of sender-confirmation attempts in a trace. -/
def senderCount (tr : List Attempt) : Nat := (tr.filter isSender).length

/-- The head of the string is not whitespace (vacuous for the empty
string): what survives of trimming after a `substring` truncation. -/
def headNotWs : JStr → Bool
  | [] => true
  | c :: _ => !isWs c

/-! ### Concrete inputs used by the counterexamples and witnesses -/

/-- The scenario input of the spec: name `Jo`, email `jo@x.com`, message `0123456789`. -/
def bodyJo : Body :=
  ⟨some (str "Jo"), some (str "jo@x.com"), none, some (str "0123456789"), none, none⟩

/-- Its sanitized form. -/
def cleanJo : Clean :=
  ⟨str "Jo", str "jo@x.com", str "Portfolio Contact Form", str "0123456789"⟩

/-- A valid submission whose honeypot field is filled. -/
def bodyBot : Body :=
  ⟨some (str "Jo"), some (str "jo@x.com"), none, some (str "0123456789"),
   some (str "I am a bot"), none⟩

/-- A valid submission whose honeypot field is a single space: non-empty,
but empty once trimmed. -/
def bodySpaceTrap : Body :=
  ⟨some (str "Jo"), some (str "jo@x.com"), none, some (str "0123456789"),
   some (str " "), none⟩

/-- A valid submission whose subject contains an interior newline. -/
def bodyNl : Body :=
  ⟨some (str "Jo"), some (str "jo@x.com"), some (str "Hi" ++ [10] ++ str "Bcc: x"),
   some (str "0123456789"), none, none⟩

/-- A valid submission whose subject is whitespace only. -/
def bodySpaceSubject : Body :=
  ⟨some (str "Jo"), some (str "jo@x.com"), some (str " "),
   some (str "0123456789"), none, none⟩

/-- A valid submission whose name is 99 letters, a space and one more
letter: truncation to 100 characters leaves a trailing space. -/
def bodyLongName : Body :=
  ⟨some (List.replicate 99 97 ++ [32, 98]), some (str "jo@x.com"), none,
   some (str "0123456789"), none, none⟩

/-- A Pages environment with only a Resend key configured: no destination
and no sender address. -/
def envResendOnly : EnvCF :=
  ⟨some (str "re-key"), none, none, none, none, none, none, none, none⟩

/-- A Pages environment with a Resend key and a destination address. -/
def envResendTo : EnvCF :=
  ⟨some (str "re-key"), none, none, none, some (str "owner@x.com"), none, none, none, none⟩

/-- An oracle under which every provider call succeeds. -/
def oracleAllOk : OracleCF := ⟨true, [], true, true, [], true⟩

/-- An oracle under which both owner sends fail: Resend with detail
`resend boom`, MailChannels with statusText `Bad Gateway`. -/
def oracleBothFail : OracleCF :=
  ⟨false, str "resend boom", true, false, str "Bad Gateway", true⟩

/-- An SMTP environment with SMTP fully configured. -/
def envSmtpOn : EnvSMTP :=
  ⟨some (str "smtp.example.com"), some (str "user"), some (str "pass"), none, none, none⟩

/-- An SMTP environment with no SMTP credentials at all. -/
def envSmtpOff : EnvSMTP := ⟨none, none, none, none, none, none⟩

/-- SMTP oracle: both sends succeed. -/
def oracleSmtpOk : OracleSMTP := ⟨false, false, false⟩

/-- SMTP oracle: the owner send succeeds, the confirmation send rejects. -/
def oracleSenderFails : OracleSMTP := ⟨false, false, true⟩

/-- Resend oracle: both owner sends would succeed, both confirmation
sends would fail. -/
def oracleConfirmFails : OracleCF := ⟨true, [], false, true, [], false⟩

/-- A valid submission with a 6000-character message. -/
def bodyLongMsg : Body :=
  ⟨some (str "Jo"), some (str "jo@x.com"), none, some (List.replicate 6000 97), none, none⟩

/-- Its sanitized form: the message clipped to its first 5000 characters. -/
def cleanLongMsg : Clean :=
  ⟨str "Jo", str "jo@x.com", str "Portfolio Contact Form", List.replicate 5000 97⟩

/-- Sanitized form of `bodyNl`: the interior newline survives in the
subject of the Pages function. -/
def cleanNl : Clean :=
  ⟨str "Jo", str "jo@x.com", str "Hi" ++ [10] ++ str "Bcc: x", str "0123456789"⟩

/-- Sanitized form of `bodySpaceSubject`: an empty subject. -/
def cleanSpaceSubject : Clean :=
  ⟨str "Jo", str "jo@x.com", [], str "0123456789"⟩

/-- Sanitized form of `bodyLongName`: the name ends in a space. -/
def cleanLongName : Clean :=
  ⟨List.replicate 99 97 ++ [32], str "jo@x.com", str "Portfolio Contact Form", str "0123456789"⟩

instance {ε α : Type} [DecidableEq ε] [DecidableEq α] : DecidableEq (Except ε α) := fun a b =>
  match a, b with
  | .error x, .error y =>
    if h : x = y then .isTrue (by rw [h]) else .isFalse (fun hc => h (Except.error.inj hc))
  | .ok x, .ok y =>
    if h : x = y then .isTrue (by rw [h]) else .isFalse (fun hc => h (Except.ok.inj hc))
  | .error _, .ok _ => .isFalse Except.noConfusion
  | .ok _, .error _ => .isFalse Except.noConfusion

/-! ## Lemmas about the string primitives -/

theorem ltrim_headNotWs (s : JStr) : headNotWs (ltrim s) = true := by
  induction s with
  | nil => rfl
  | cons c rest ih =>
    by_cases hc : isWs c
    · simpa [ltrim, List.dropWhile, hc] using ih
    · simp [ltrim, List.dropWhile, hc, headNotWs]

theorem rtrim_headNotWs (s : JStr) (h : headNotWs s = true) :
    headNotWs (rtrim s) = true := by
  cases s with
  | nil => rfl
  | cons c rest =>
    rw [rtrim]
    cases hr : rtrim rest with
    | nil =>
      by_cases hc : isWs c
      · simp [hc, headNotWs]
      · simp [hc, headNotWs]
    | cons d tl => simpa [headNotWs] using h

theorem trim_headNotWs (s : JStr) : headNotWs (trim s) = true :=
  rtrim_headNotWs _ (ltrim_headNotWs s)

theorem take_headNotWs (n : Nat) (s : JStr) (h : headNotWs s = true) :
    headNotWs (s.take n) = true := by
  cases s with
  | nil => simp [headNotWs]
  | cons c rest =>
    cases n with
    | zero => rfl
    | succ k => simpa [List.take, headNotWs] using h

theorem rtrim_sublist (s : JStr) : List.Sublist (rtrim s) s := by
  induction s with
  | nil => exact List.Sublist.refl _
  | cons c rest ih =>
    rw [rtrim]
    cases hr : rtrim rest with
    | nil =>
      by_cases hc : isWs c
      · simp [hc]
      · simp only [hc, if_false]
        exact (List.nil_sublist rest).cons₂ c
    | cons d tl =>
      rw [hr] at ih
      exact ih.cons₂ c

theorem ltrim_sublist (s : JStr) : List.Sublist (ltrim s) s := List.dropWhile_sublist _

theorem trim_sublist (s : JStr) : List.Sublist (trim s) s :=
  (rtrim_sublist _).trans (ltrim_sublist s)

theorem trim_length_le (s : JStr) : (trim s).length ≤ s.length :=
  (trim_sublist s).length_le

theorem toLower_length (s : JStr) : (toLower s).length = s.length :=
  List.length_map _ _

theorem toLowerC_idem (c : Nat) : toLowerC (toLowerC c) = toLowerC c := by
  by_cases h : 65 ≤ c ∧ c ≤ 90
  · have h1 : toLowerC c = c + 32 := if_pos h
    rw [h1, toLowerC, if_neg (by omega)]
  · have h1 : toLowerC c = c := if_neg h
    rw [h1, h1]

theorem toLower_idem (s : JStr) : toLower (toLower s) = toLower s := by
  unfold toLower
  rw [List.map_map]
  exact List.map_congr_left (fun c _ => toLowerC_idem c)

theorem memB_eq_false_of_not_mem {c : Nat} {s : JStr} (h : c ∉ s) :
    memB c s = false := by
  induction s with
  | nil => rfl
  | cons d rest ih =>
    rw [memB]
    simp only [List.mem_cons, not_or] at h
    simp [Ne.symm h.1, ih h.2]

theorem collapseNL_not_mem_cr (prev : Bool) (s : JStr) :
    13 ∉ collapseNL prev s ∧ 10 ∉ collapseNL prev s := by
  induction s generalizing prev with
  | nil => simp [collapseNL]
  | cons c rest ih =>
    rw [collapseNL]
    by_cases hc : c = 13 ∨ c = 10
    · rcases ih true with ⟨i1, i2⟩
      cases prev <;> simp [hc, i1, i2]
    · push_neg at hc
      rcases ih false with ⟨i1, i2⟩
      simp [if_neg, hc, i1, i2]
      constructor
      · exact fun h => hc.1 h.symm
      · exact fun h => hc.2 h.symm

theorem stripNewlines_not_mem_cr (s : JStr) :
    13 ∉ stripNewlines s ∧ 10 ∉ stripNewlines s := by
  have hsub : List.Sublist (stripNewlines s) (collapseNL false s) := trim_sublist _
  rcases collapseNL_not_mem_cr false s with ⟨h13, h10⟩
  exact ⟨fun h => h13 (hsub.subset h), fun h => h10 (hsub.subset h)⟩

theorem firstTruthy_isEmpty_false :
    ∀ (l : List (Option JStr)) (s : JStr), firstTruthy l = some s → s.isEmpty = false := by
  intro l
  induction l with
  | nil => intro s h; simp [firstTruthy] at h
  | cons hd tl ih =>
    intro s h
    cases hd with
    | none => exact ih s h
    | some x =>
      rw [firstTruthy] at h
      by_cases hx : x.isEmpty
      · rw [if_pos hx] at h
        exact ih s h
      · rw [if_neg hx] at h
        cases h
        exact Bool.not_eq_true _ ▸ (by simpa using hx)

theorem ownerEmailOf_isEmpty_false (env : EnvCF) :
    (ownerEmailOf env).isEmpty = false := by
  rw [ownerEmailOf]
  cases hft : firstTruthy [env.CONTACT_TO, env.contact_to, env.NOTIFY_EMAIL, env.notify_email] with
  | none => decide
  | some s => simpa using firstTruthy_isEmpty_false _ s hft

theorem fromEmailOf_isEmpty_false (env : EnvCF) :
    (fromEmailOf env).isEmpty = false := by
  rw [fromEmailOf]
  cases hft : firstTruthy [env.CONTACT_FROM, env.contact_from] with
  | none => decide
  | some s => simpa using firstTruthy_isEmpty_false _ s hft

/-! ## Lemmas about HTML escaping -/

theorem escaped_append {a b : JStr} (ha : Escaped a) (hb : Escaped b) :
    Escaped (a ++ b) := by
  induction ha with
  | nil => simpa
  | amp _ ih => exact .amp ih
  | ltE _ ih => exact .ltE ih
  | gtE _ ih => exact .gtE ih
  | quotE _ ih => exact .quotE ih
  | aposE _ ih => exact .aposE ih
  | chr h1 h2 h3 h4 h5 _ ih => exact .chr h1 h2 h3 h4 h5 ih

theorem escaped_escChar (c : Nat) : Escaped (escChar c) := by
  unfold escChar
  split
  · exact .amp .nil
  · split
    · exact .ltE .nil
    · split
      · exact .gtE .nil
      · split
        · exact .quotE .nil
        · split
          · exact .aposE .nil
          · next h1 h2 h3 h4 h5 => exact .chr h1 h2 h3 h4 h5 .nil

theorem escaped_escapeHtml (s : JStr) : Escaped (escapeHtml s) := by
  induction s with
  | nil => exact .nil
  | cons c rest ih => exact escaped_append (escaped_escChar c) ih

theorem escChar_length_pos (c : Nat) : 1 ≤ (escChar c).length := by
  unfold escChar
  split <;> try simp
  split <;> try simp
  split <;> try simp
  split <;> try simp
  split <;> simp

theorem length_le_escapeHtml (s : JStr) : s.length ≤ (escapeHtml s).length := by
  induction s with
  | nil => simp [escapeHtml]
  | cons c rest ih =>
    rw [escapeHtml, List.length_append, List.length_cons]
    have := escChar_length_pos c
    omega

theorem amp_mem_escapeHtml {s : JStr} (h : hasMeta s = true) :
    38 ∈ escapeHtml s := by
  induction s with
  | nil => simp [hasMeta] at h
  | cons c rest ih =>
    rw [escapeHtml]
    rw [hasMeta, List.any_cons] at h
    rcases Bool.or_eq_true_iff.mp h with hc | hrest
    · refine List.mem_append.mpr (Or.inl ?_)
      unfold escChar
      have hc' : c = 38 ∨ c = 60 ∨ c = 62 ∨ c = 34 ∨ c = 39 := by
        simpa using hc
      rcases hc' with h | h | h | h | h <;> subst h <;> simp
    · exact List.mem_append.mpr (Or.inr (ih hrest))

theorem length_lt_escapeHtml {s : JStr} (h : 38 ∈ s) :
    s.length < (escapeHtml s).length := by
  induction s with
  | nil => simp at h
  | cons c rest ih =>
    rw [escapeHtml, List.length_append, List.length_cons]
    rcases List.mem_cons.mp h with hc | hrest
    · have h5 : (escChar c).length = 5 := by subst hc; rfl
      have := length_le_escapeHtml rest
      omega
    · have := escChar_length_pos c
      have := ih hrest
      omega

theorem escapeHtml_not_idem {s : JStr} (h : hasMeta s = true) :
    escapeHtml (escapeHtml s) ≠ escapeHtml s := by
  intro heq
  have h38 : 38 ∈ escapeHtml s := amp_mem_escapeHtml h
  have hlt := length_lt_escapeHtml h38
  rw [heq] at hlt
  exact lt_irrefl _ hlt

/-! ## A pattern-valid email contains no HTML metacharacter -/

theorem splitAtFirst_eq {t : Nat} :
    ∀ {s a b : JStr}, splitAtFirst t s = some (a, b) → s = a ++ t :: b := by
  intro s
  induction s with
  | nil => intro a b h; simp [splitAtFirst] at h
  | cons c rest ih =>
    intro a b h
    rw [splitAtFirst] at h
    by_cases hc : c = t
    · rw [if_pos hc] at h
      obtain ⟨ha, hb⟩ := Prod.mk.inj (Option.some.inj h)
      subst ha; subst hb; subst hc
      rfl
    · rw [if_neg hc] at h
      cases hr : splitAtFirst t rest with
      | none => rw [hr] at h; exact absurd h (by simp)
      | some p =>
        rw [hr] at h
        obtain ⟨a', b'⟩ := p
        obtain ⟨ha, hb⟩ := Prod.mk.inj (Option.some.inj h)
        subst hb
        rw [← ha, List.cons_append]
        rw [ih hr]

/-- A string none of whose characters is a metacharacter is (vacuously)
escaped. -/
theorem escaped_of_no_meta {s : JStr}
    (h : ∀ x ∈ s, x ≠ 38 ∧ x ≠ 60 ∧ x ≠ 62 ∧ x ≠ 34 ∧ x ≠ 39) : Escaped s := by
  induction s with
  | nil => exact .nil
  | cons c rest ih =>
    obtain ⟨h1, h2, h3, h4, h5⟩ := h c (List.mem_cons_self c rest)
    exact .chr h1 h2 h3 h4 h5 (ih (fun x hx => h x (List.mem_cons_of_mem c hx)))

theorem notMeta_of_isLocalChar {x : Nat} (h : isLocalChar x = true) :
    x ≠ 38 ∧ x ≠ 60 ∧ x ≠ 62 ∧ x ≠ 34 ∧ x ≠ 39 := by
  refine ⟨?_, ?_, ?_, ?_, ?_⟩ <;> rintro rfl <;> revert h <;> decide

theorem notMeta_of_isDomainChar {x : Nat} (h : isDomainChar x = true) :
    x ≠ 38 ∧ x ≠ 60 ∧ x ≠ 62 ∧ x ≠ 34 ∧ x ≠ 39 := by
  refine ⟨?_, ?_, ?_, ?_, ?_⟩ <;> rintro rfl <;> revert h <;> decide

theorem notMeta_of_isAlphaC {x : Nat} (h : isAlphaC x = true) :
    x ≠ 38 ∧ x ≠ 60 ∧ x ≠ 62 ∧ x ≠ 34 ∧ x ≠ 39 := by
  refine ⟨?_, ?_, ?_, ?_, ?_⟩ <;> rintro rfl <;> revert h <;> decide

/-- Every character of a string matching the email pattern lies in the
local, `@`, domain or TLD character classes, none of which contains an
HTML metacharacter. -/
theorem emailMatch_no_meta {e : JStr} (he : emailMatch e = true) :
    ∀ x ∈ e, x ≠ 38 ∧ x ≠ 60 ∧ x ≠ 62 ∧ x ≠ 34 ∧ x ≠ 39 := by
  rw [emailMatch] at he
  cases hsp : splitAtFirst 64 e with
  | none => rw [hsp] at he; exact absurd he (by simp)
  | some p =>
    obtain ⟨lp, rest⟩ := p
    rw [hsp] at he
    simp only [Bool.and_eq_true] at he
    cases hsp2 : splitAtFirst 46 rest.reverse with
    | none => rw [hsp2] at he; exact absurd he.2 (by simp)
    | some q =>
      obtain ⟨revTld, revDom⟩ := q
      rw [hsp2] at he
      simp only [Bool.and_eq_true, List.all_eq_true] at he
      obtain ⟨⟨_, hlp⟩, ⟨⟨⟨_, hdom⟩, _⟩, htld⟩⟩ := he
      intro x hx
      rw [splitAtFirst_eq hsp] at hx
      rcases List.mem_append.mp hx with hxl | hxr
      · exact notMeta_of_isLocalChar (hlp x hxl)
      rcases List.mem_cons.mp hxr with hx64 | hxrest
      · subst hx64; refine ⟨?_, ?_, ?_, ?_, ?_⟩ <;> decide
      have hxrev : x ∈ rest.reverse := List.mem_reverse.mpr hxrest
      rw [splitAtFirst_eq hsp2] at hxrev
      rcases List.mem_append.mp hxrev with hxt | hxd
      · exact notMeta_of_isAlphaC (htld x (List.mem_reverse.mpr hxt))
      rcases List.mem_cons.mp hxd with hx46 | hxdom
      · subst hx46; refine ⟨?_, ?_, ?_, ?_, ?_⟩ <;> decide
      · exact notMeta_of_isDomainChar (hdom x (List.mem_reverse.mpr hxdom))

/-- A sanitized email that passed the pattern check is escaped as it
stands: it cannot inject markup even when interpolated raw. -/
theorem escaped_email {e : JStr} (he : emailMatch e = true) : Escaped e :=
  escaped_of_no_meta (emailMatch_no_meta he)

/-! ## Inversion of the validation of the Pages function -/

theorem validateCF_ok_inv {b : Body} {c : Clean}
    (h : validateCF (some b) = Except.ok c) :
    ∃ n e m, b.name = some n ∧ b.email = some e ∧ b.message = some m ∧
      2 ≤ (trim n).length ∧ e.length ≤ 254 ∧
      emailMatch (toLower (trim e)) = true ∧ 10 ≤ (trim m).length ∧
      c = ⟨(trim n).take 100, toLower (trim e), cleanSubjectCF b.subject,
           (trim m).take 5000⟩ := by
  rw [validateCF] at h
  cases hn : b.name with
  | none => rw [hn] at h; exact absurd h (by simp)
  | some n =>
    rw [hn] at h
    simp only at h
    by_cases h2 : (trim n).length < 2
    · rw [if_pos h2] at h; exact absurd h (by simp)
    rw [if_neg h2] at h
    cases he : b.email with
    | none => rw [he] at h; exact absurd h (by simp)
    | some e =>
      rw [he] at h
      simp only at h
      by_cases h254 : e.isEmpty = true ∨ 254 < e.length
      · rw [if_pos h254] at h; exact absurd h (by simp)
      rw [if_neg h254] at h
      cases hre : emailMatch (toLower (trim e)) with
      | false =>
        rw [hre] at h
        rw [if_pos (by simp)] at h
        exact absurd h (by simp)
      | true =>
      rw [hre] at h
      rw [if_neg (by simp)] at h
      cases hm : b.message with
      | none => rw [hm] at h; exact absurd h (by simp)
      | some m =>
        rw [hm] at h
        simp only at h
        by_cases h10 : (trim m).length < 10
        · rw [if_pos h10] at h; exact absurd h (by simp)
        rw [if_neg h10] at h
        refine ⟨n, e, m, rfl, rfl, rfl, by omega, ?_, hre, by omega, ?_⟩
        · push_neg at h254
          omega
        · exact (Except.ok.inj h).symm

/-! ## Inversion of the validation of the SMTP handler -/

theorem validateSMTP_ok_inv {b : Body} {c : Clean}
    (h : validateSMTP b = Except.ok c) :
    ∃ n e m, b.name = some n ∧ b.email = some e ∧ b.message = some m ∧
      2 ≤ (trim n).length ∧ (toLower (trim e)).length ≤ 254 ∧
      emailMatch (toLower (trim e)) = true ∧ 10 ≤ (trim m).length ∧
      c = ⟨(trim n).take 100, toLower (trim e), cleanSubjectSMTP b.subject,
           (trim m).take 5000⟩ := by
  rw [validateSMTP] at h
  cases hn : b.name with
  | none => rw [hn] at h; exact absurd h (by simp)
  | some n =>
    rw [hn] at h
    simp only at h
    by_cases h2 : (trim n).length < 2
    · rw [if_pos h2] at h; exact absurd h (by simp)
    rw [if_neg h2] at h
    cases he : b.email with
    | none => rw [he] at h; exact absurd h (by simp)
    | some e =>
      rw [he] at h
      simp only at h
      by_cases hemp : e.isEmpty = true
      · rw [if_pos hemp] at h; exact absurd h (by simp)
      rw [if_neg hemp] at h
      cases hm : b.message with
      | none => rw [hm] at h; exact absurd h (by simp)
      | some m =>
        rw [hm] at h
        simp only at h
        by_cases h10 : (trim m).length < 10
        · rw [if_pos h10] at h; exact absurd h (by simp)
        rw [if_neg h10] at h
        by_cases hre : 254 < (toLower (trim e)).length ∨
            (!emailMatch (toLower (trim e))) = true
        · rw [if_pos hre] at h; exact absurd h (by simp)
        rw [if_neg hre] at h
        push_neg at hre
        obtain ⟨h254, hrx⟩ := hre
        refine ⟨n, e, m, rfl, rfl, rfl, by omega, by omega, ?_, by omega, ?_⟩
        · simpa using hrx
        · exact (Except.ok.inj h).symm

/-! ## The claims -/

/-- C4: in the composed rich-text (HTML) email bodies of BOTH handlers
(Pages `buildOwnerHtml`/`buildSenderHtml` and the SMTP inline
owner/confirmation bodies), every interpolated user value is escaped:
the name, subject and message slots are `escapeHtml` of the sanitized
field — applied exactly once, since applying it a second time would
change any value containing a metacharacter — and the raw email slots of
the SMTP owner body hold a pattern-valid email, which can contain no HTML
metacharacter.  So the metacharacters (codes 38, 60, 62, 34, 39)
occurring in name, subject or message never appear unescaped in any
composed body. -/
theorem c4_html_escaping (c : Clean) (m : ReqMeta)
    (he : emailMatch c.email = true) :
    (∀ v ∈ ownerHtmlVals c m, Escaped v) ∧
    (∀ v ∈ senderHtmlVals c, Escaped v) ∧
    (∀ v ∈ ownerHtmlValsSMTP c, Escaped v) ∧
    (∀ v ∈ senderHtmlValsSMTP c, Escaped v) ∧
    (∀ s : JStr, hasMeta s = true → escapeHtml (escapeHtml s) ≠ escapeHtml s) := by
  refine ⟨?_, ?_, ?_, ?_, fun s hs => escapeHtml_not_idem hs⟩
  · intro v hv
    simp only [ownerHtmlVals, List.mem_cons, List.not_mem_nil, or_false] at hv
    rcases hv with h | h | h | h | h | h | h | h | h <;> subst h <;>
      exact escaped_escapeHtml _
  · intro v hv
    simp only [senderHtmlVals, List.mem_cons, List.not_mem_nil, or_false] at hv
    rcases hv with h | h | h <;> subst h <;> exact escaped_escapeHtml _
  · intro v hv
    simp only [ownerHtmlValsSMTP, List.mem_cons, List.not_mem_nil, or_false] at hv
    rcases hv with h | h | h | h | h | h <;> subst h
    · exact escaped_escapeHtml _
    · exact escaped_email he
    · exact escaped_email he
    · exact escaped_escapeHtml _
    · exact escaped_escapeHtml _
    · exact escaped_email he
  · intro v hv
    simp only [senderHtmlValsSMTP, List.mem_cons, List.not_mem_nil, or_false] at hv
    rcases hv with h | h | h <;> subst h <;> exact escaped_escapeHtml _

/-- C4 witness: the scenario submission discharges the pattern-valid
email hypothesis, and a concrete metacharacter-bearing string shows the
non-idempotence clause has content. -/
theorem c4_witness :
    emailMatch cleanJo.email = true ∧
    hasMeta (str "a<b") = true ∧
    ((∀ v ∈ ownerHtmlVals cleanJo ⟨[], [], []⟩, Escaped v) ∧
     (∀ v ∈ senderHtmlVals cleanJo, Escaped v) ∧
     (∀ v ∈ ownerHtmlValsSMTP cleanJo, Escaped v) ∧
     (∀ v ∈ senderHtmlValsSMTP cleanJo, Escaped v) ∧
     (∀ s : JStr, hasMeta s = true → escapeHtml (escapeHtml s) ≠ escapeHtml s)) :=
  ⟨by decide, by decide, c4_html_escaping cleanJo ⟨[], [], []⟩ (by decide)⟩

/-- C5 (amended): in the SMTP handler the sanitized subject is free of CR
and LF, and the default is applied when the subject is absent.  (The
`cleanSubjectCF` of the Pages function only trims and truncates — see the
counterexample.) -/
theorem c5_subject_sanitize (subject : Option JStr) :
    memB 13 (cleanSubjectSMTP subject) = false ∧
    memB 10 (cleanSubjectSMTP subject) = false ∧
    cleanSubjectSMTP none = str "Portfolio Contact Form" := by
  have hsub : List.Sublist (cleanSubjectSMTP subject)
      (stripNewlines (jsOr subject (str "Portfolio Contact Form"))) := by
    rw [cleanSubjectSMTP]
    exact List.take_sublist _ _
  rcases stripNewlines_not_mem_cr (jsOr subject (str "Portfolio Contact Form")) with ⟨h13, h10⟩
  exact ⟨memB_eq_false_of_not_mem (fun h => h13 (hsub.subset h)),
         memB_eq_false_of_not_mem (fun h => h10 (hsub.subset h)),
         by decide⟩

/-- C5 counterexample: the Pages function accepts a subject with an
interior newline and its sanitized subject still contains the LF (and
flows into two provider sends); the newline-stripping of the claim does not
hold there. -/
theorem c5_counterexample :
    validateCF (some bodyNl) = Except.ok cleanNl ∧
    memB 10 cleanNl.subject = true ∧
    (onRequestPostCF envResendTo oracleAllOk (some bodyNl)).2.length = 2 := by
  refine ⟨by rfl, by decide, by rfl⟩

/-- C6: with no destination address configured, the Pages function does
not answer a distinct 5xx "misconfigured" signal: `OWNER_EMAIL` silently
falls back to the hardcoded default address and the submission is sent
there with a 200 response.  The code contradicts the claim (and the spec
flags exactly this silent default as the latent bug). -/
theorem c6_silent_default :
    ownerEmailOf envResendOnly = str "dhruvilthummar1303@gmail.com" ∧
    onRequestPostCF envResendOnly oracleAllOk (some bodyJo) =
      (⟨200, .jsonOk (str "Message received! Check your email for confirmation.")⟩,
       [⟨.resend, .owner, str "dhruvilthummar1303@gmail.com"⟩,
        ⟨.resend, .sender, str "jo@x.com"⟩]) := by
  exact ⟨by rfl, by rfl⟩

/-- C7: in BOTH handlers, an otherwise-valid submission whose message
trims to 6000 characters yields a sanitized message of exactly 5000
characters — the first 5000 of the trimmed input. -/
theorem c7_message_truncation (b bS : Body) (m mS : JStr) (c cS : Clean)
    (hm : b.message = some m) (hlen : (trim m).length = 6000)
    (h : validateCF (some b) = Except.ok c)
    (hmS : bS.message = some mS) (hlenS : (trim mS).length = 6000)
    (hS : validateSMTP bS = Except.ok cS) :
    (c.message = (trim m).take 5000 ∧ c.message.length = 5000) ∧
    (cS.message = (trim mS).take 5000 ∧ cS.message.length = 5000) := by
  constructor
  · obtain ⟨n, e, m', hn, he, hm', _, _, _, _, hc⟩ := validateCF_ok_inv h
    have hmm : m' = m := by
      rw [hm] at hm'
      exact (Option.some.inj hm').symm
    subst hmm
    subst hc
    refine ⟨rfl, ?_⟩
    simp only [List.length_take, hlen]
    omega
  · obtain ⟨n, e, m', hn, he, hm', _, _, _, _, hc⟩ := validateSMTP_ok_inv hS
    have hmm : m' = mS := by
      rw [hmS] at hm'
      exact (Option.some.inj hm').symm
    subst hmm
    subst hc
    refine ⟨rfl, ?_⟩
    simp only [List.length_take, hlenS]
    omega

/-- An all-`a` string has no surrounding whitespace to trim. -/
theorem ltrim_replicate97 (n : Nat) :
    ltrim (List.replicate n 97) = List.replicate n 97 := by
  cases n with
  | zero => rfl
  | succ k => rw [List.replicate_succ, ltrim, List.dropWhile_cons]; rfl

theorem rtrim_replicate97 (n : Nat) :
    rtrim (List.replicate n 97) = List.replicate n 97 := by
  induction n with
  | zero => rfl
  | succ k ih =>
    rw [List.replicate_succ, rtrim, ih]
    cases k with
    | zero => rfl
    | succ j => rw [List.replicate_succ]

theorem trim_replicate97 (n : Nat) :
    trim (List.replicate n 97) = List.replicate n 97 := by
  rw [trim, ltrim_replicate97, rtrim_replicate97]

/-- C7 witness: the concrete 6000-character message, through both
sanitizers. -/
theorem c7_witness :
    validateCF (some bodyLongMsg) = Except.ok cleanLongMsg ∧
    validateSMTP bodyLongMsg = Except.ok cleanLongMsg ∧
    (cleanLongMsg.message = (trim (List.replicate 6000 97)).take 5000 ∧
     cleanLongMsg.message.length = 5000) := by
  have e1 : trim (List.replicate 6000 97) = List.replicate 6000 97 :=
    trim_replicate97 6000
  have h6 : (trim (List.replicate 6000 97)).length = 6000 := by
    rw [e1, List.length_replicate]
  have hv : validateCF (some bodyLongMsg) = Except.ok cleanLongMsg := by
    rw [validateCF]
    dsimp only [bodyLongMsg]
    rw [if_neg (by decide), if_neg (by decide), if_neg (by decide),
        if_neg (by rw [h6]; omega)]
    rw [e1, List.take_replicate]
    norm_num
    rfl
  have hvS : validateSMTP bodyLongMsg = Except.ok cleanLongMsg := by
    rw [validateSMTP]
    dsimp only [bodyLongMsg]
    rw [if_neg (by decide), if_neg (by decide),
        if_neg (by rw [h6]; omega), if_neg (by decide)]
    rw [e1, List.take_replicate]
    norm_num
    rfl
  have hm : bodyLongMsg.message = some (List.replicate 6000 97) := rfl
  exact ⟨hv, hvS,
         (c7_message_truncation bodyLongMsg bodyLongMsg _ _ cleanLongMsg cleanLongMsg
           hm h6 hv hm h6 hvS).1⟩

/-- C9 (amended): in BOTH handlers, whenever the handler proceeds to a
provider send (i.e. validation succeeded), the sanitized fields satisfy:
name of length 2–100 with no leading whitespace (truncation can leave
trailing whitespace), email lowercase (lowercasing is idempotent on it),
at most 254 characters and matching the email pattern, subject equal to
that handler's sanitizer output — trim-then-truncate in the Pages
function, newline-collapse-trim-then-truncate in the SMTP handler —
hence at most 200 characters but possibly empty when the provided
subject is whitespace only, and message of length 10–5000 with no
leading whitespace. -/
theorem c9_sanitization_bounds (b bS : Body) (c cS : Clean)
    (h : validateCF (some b) = Except.ok c)
    (hS : validateSMTP bS = Except.ok cS) :
    ((2 ≤ c.name.length ∧ c.name.length ≤ 100 ∧ headNotWs c.name = true) ∧
     (toLower c.email = c.email ∧ c.email.length ≤ 254 ∧ emailMatch c.email = true) ∧
     (c.subject = cleanSubjectCF b.subject ∧ c.subject.length ≤ 200) ∧
     (10 ≤ c.message.length ∧ c.message.length ≤ 5000 ∧ headNotWs c.message = true)) ∧
    ((2 ≤ cS.name.length ∧ cS.name.length ≤ 100 ∧ headNotWs cS.name = true) ∧
     (toLower cS.email = cS.email ∧ cS.email.length ≤ 254 ∧ emailMatch cS.email = true) ∧
     (cS.subject = cleanSubjectSMTP bS.subject ∧ cS.subject.length ≤ 200) ∧
     (10 ≤ cS.message.length ∧ cS.message.length ≤ 5000 ∧ headNotWs cS.message = true)) := by
  constructor
  · obtain ⟨n, e, m, hn, he, hm, h2, h254, hre, h10, hc⟩ := validateCF_ok_inv h
    subst hc
    refine ⟨⟨?_, ?_, ?_⟩, ⟨?_, ?_, ?_⟩, ⟨rfl, ?_⟩, ⟨?_, ?_, ?_⟩⟩
    · simp only [List.length_take]; omega
    · simp only [List.length_take]; omega
    · exact take_headNotWs _ _ (trim_headNotWs n)
    · exact toLower_idem (trim e)
    · have := trim_length_le e
      simp only [toLower_length]
      omega
    · exact hre
    · rw [cleanSubjectCF]
      simp only [List.length_take]
      omega
    · have := trim_length_le m
      simp only [List.length_take]
      omega
    · simp only [List.length_take]; omega
    · exact take_headNotWs _ _ (trim_headNotWs m)
  · obtain ⟨n, e, m, hn, he, hm, h2, h254, hre, h10, hc⟩ := validateSMTP_ok_inv hS
    subst hc
    refine ⟨⟨?_, ?_, ?_⟩, ⟨?_, ?_, ?_⟩, ⟨rfl, ?_⟩, ⟨?_, ?_, ?_⟩⟩
    · simp only [List.length_take]; omega
    · simp only [List.length_take]; omega
    · exact take_headNotWs _ _ (trim_headNotWs n)
    · exact toLower_idem (trim e)
    · exact h254
    · exact hre
    · rw [cleanSubjectSMTP]
      simp only [List.length_take]
      omega
    · have := trim_length_le m
      simp only [List.length_take]
      omega
    · simp only [List.length_take]; omega
    · exact take_headNotWs _ _ (trim_headNotWs m)

/-- C9 counterexample against the claim as stated: in both handlers a
whitespace-only subject yields an EMPTY sanitized subject that still
flows into two provider sends, and a 101-character name is clipped to
100 characters ending in a space, i.e. the sanitized name is not
trimmed. -/
theorem c9_counterexample :
    validateCF (some bodySpaceSubject) = Except.ok cleanSpaceSubject ∧
    validateSMTP bodySpaceSubject = Except.ok cleanSpaceSubject ∧
    cleanSpaceSubject.subject = [] ∧
    (onRequestPostCF envResendTo oracleAllOk (some bodySpaceSubject)).2.length = 2 ∧
    (handlerSMTP envSmtpOn oracleSmtpOk (str "POST") bodySpaceSubject).2.length = 2 ∧
    validateCF (some bodyLongName) = Except.ok cleanLongName ∧
    trim cleanLongName.name ≠ cleanLongName.name := by
  refine ⟨by rfl, by rfl, by rfl, by rfl, by rfl, by rfl, by decide⟩

/-- C9 witness: the bounds at the scenario input of the spec, through
both sanitizers. -/
theorem c9_witness :
    validateCF (some bodyJo) = Except.ok cleanJo ∧
    validateSMTP bodyJo = Except.ok cleanJo ∧
    (((2 ≤ cleanJo.name.length ∧ cleanJo.name.length ≤ 100 ∧ headNotWs cleanJo.name = true) ∧
      (toLower cleanJo.email = cleanJo.email ∧ cleanJo.email.length ≤ 254 ∧
       emailMatch cleanJo.email = true) ∧
      (cleanJo.subject = cleanSubjectCF bodyJo.subject ∧ cleanJo.subject.length ≤ 200) ∧
      (10 ≤ cleanJo.message.length ∧ cleanJo.message.length ≤ 5000 ∧
       headNotWs cleanJo.message = true)) ∧
     ((2 ≤ cleanJo.name.length ∧ cleanJo.name.length ≤ 100 ∧ headNotWs cleanJo.name = true) ∧
      (toLower cleanJo.email = cleanJo.email ∧ cleanJo.email.length ≤ 254 ∧
       emailMatch cleanJo.email = true) ∧
      (cleanJo.subject = cleanSubjectSMTP bodyJo.subject ∧ cleanJo.subject.length ≤ 200) ∧
      (10 ≤ cleanJo.message.length ∧ cleanJo.message.length ≤ 5000 ∧
       headNotWs cleanJo.message = true))) := by
  have hv : validateCF (some bodyJo) = Except.ok cleanJo := by rfl
  have hvS : validateSMTP bodyJo = Except.ok cleanJo := by rfl
  exact ⟨hv, hvS, c9_sanitization_bounds bodyJo bodyJo cleanJo cleanJo hv hvS⟩

/-- C10: in the SMTP variant, a submission that passes the honeypot and
validation while any SMTP credential is missing is answered 200 ok
("logged") with zero provider send attempts. -/
theorem c10_log_only (env : EnvSMTP) (o : OracleSMTP) (b : Body) (c : Clean)
    (htrap : (trim (trapOf b)).isEmpty = true)
    (hv : validateSMTP b = Except.ok c)
    (hs : hasSmtpOf env = false) :
    handlerSMTP env o (str "POST") b =
      (⟨200, .jsonOk (str "Message logged (SMTP not configured)")⟩, []) := by
  rw [handlerSMTP, hv]
  rw [if_neg (by simp), if_neg (by simp [htrap])]
  simp only [hs, Bool.not_false, if_true]

/-- C10 witness: the scenario input with an empty environment. -/
theorem c10_witness :
    handlerSMTP envSmtpOff oracleSmtpOk (str "POST") bodyJo =
      (⟨200, .jsonOk (str "Message logged (SMTP not configured)")⟩, []) := by
  exact c10_log_only envSmtpOff oracleSmtpOk bodyJo cleanJo (by rfl) (by rfl) (by rfl)

/-- C8 (amended): in the Pages function, OPTIONS is answered 204 with no
body and every other non-POST method is answered 405; the SMTP handler
answers 405 (with an error body) to EVERY non-POST method, OPTIONS
included. -/
theorem c8_method_gate (env : EnvCF) (o : OracleCF) (m : JStr) (b : Option Body)
    (envS : EnvSMTP) (oS : OracleSMTP) (bS : Body)
    (hm : m ≠ str "POST") :
    onRequestCF env o (str "OPTIONS") b = (⟨204, .noBody⟩, []) ∧
    ((onRequestCF env o m b).1.status = 405 ∨ m = str "OPTIONS") ∧
    handlerSMTP envS oS m bS =
      (⟨405, .jsonErr (str "Method not allowed. Use POST.")⟩, []) := by
  refine ⟨?_, ?_, ?_⟩
  · rw [onRequestCF, if_neg (by decide), if_pos rfl]
  · rw [onRequestCF, if_neg hm]
    by_cases ho : m = str "OPTIONS"
    · exact Or.inr ho
    · rw [if_neg ho]
      by_cases hg : m = str "GET"
      · rw [if_pos hg]; exact Or.inl rfl
      · rw [if_neg hg]; exact Or.inl rfl
  · rw [handlerSMTP, if_pos (by simp [hm])]

/-- C8 counterexample against the claim as stated: the SMTP handler
answers an OPTIONS request with a 405 and an error body, not a no-body
allow response. -/
theorem c8_counterexample :
    handlerSMTP envSmtpOn oracleSmtpOk (str "OPTIONS") bodyJo =
      (⟨405, .jsonErr (str "Method not allowed. Use POST.")⟩, []) := by rfl

/-- C8 witness: a DELETE request. -/
theorem c8_witness :
    onRequestCF envResendTo oracleAllOk (str "OPTIONS") (some bodyJo) = (⟨204, .noBody⟩, []) ∧
    ((onRequestCF envResendTo oracleAllOk (str "DELETE") (some bodyJo)).1.status = 405 ∨
      str "DELETE" = str "OPTIONS") ∧
    handlerSMTP envSmtpOn oracleSmtpOk (str "DELETE") bodyJo =
      (⟨405, .jsonErr (str "Method not allowed. Use POST.")⟩, []) :=
  c8_method_gate envResendTo oracleAllOk (str "DELETE") (some bodyJo)
    envSmtpOn oracleSmtpOk bodyJo (by decide)

/-- C2 (amended): the honeypot exists only in the SMTP handler, and it
fires exactly when the trap value is non-empty AFTER TRIMMING, answering
a synthetic 200 success with zero provider calls; the Pages function
reads no honeypot field at all — its outcome is unchanged under any
honeypot value. -/
theorem c2_honeypot (envS : EnvSMTP) (oS : OracleSMTP) (bS : Body)
    (htrap : (trim (trapOf bS)).isEmpty = false)
    (env : EnvCF) (o : OracleCF) (b : Body) (t : Option JStr) :
    handlerSMTP envS oS (str "POST") bS =
      (⟨200, .jsonOk (str "Message received.")⟩, []) ∧
    onRequestPostCF env o (some b) = onRequestPostCF env o (some (withTrap b t)) := by
  constructor
  · rw [handlerSMTP, if_neg (by simp), if_pos (by simp [htrap])]
  · cases b
    rfl

/-- C2 counterexample against the claim as stated: a valid submission
whose honeypot field is the non-empty string of one space passes the
trimmed check of the SMTP handler and two provider sends happen; and the
Pages function sends twice even with a filled honeypot field. -/
theorem c2_counterexample :
    bodySpaceTrap.company = some (str " ") ∧
    (handlerSMTP envSmtpOn oracleSmtpOk (str "POST") bodySpaceTrap).2.length = 2 ∧
    bodyBot.company = some (str "I am a bot") ∧
    (onRequestPostCF envResendTo oracleAllOk (some bodyBot)).1 =
      ⟨200, .jsonOk (str "Message received! Check your email for confirmation.")⟩ ∧
    (onRequestPostCF envResendTo oracleAllOk (some bodyBot)).2.length = 2 := by
  refine ⟨rfl, by rfl, rfl, by rfl, by rfl⟩

/-- C2 witness: a filled honeypot (``x``). -/
theorem c2_witness :
    handlerSMTP envSmtpOn oracleSmtpOk (str "POST")
        (withTrap bodyJo (some (str "x"))) =
      (⟨200, .jsonOk (str "Message received.")⟩, []) ∧
    onRequestPostCF envResendTo oracleAllOk (some bodyJo) =
      onRequestPostCF envResendTo oracleAllOk (some (withTrap bodyJo (some (str "x")))) :=
  c2_honeypot envSmtpOn oracleSmtpOk (withTrap bodyJo (some (str "x"))) (by decide)
    envResendTo oracleAllOk bodyJo (some (str "x"))

/-- The MailChannels failure detail is never the empty string, so the 502
response never falls back to `Unknown error` on that path. -/
theorem mcFailMsg_isEmpty_false (st : JStr) :
    (str "Email service error: " ++ st ++ str ". Please try again later.").isEmpty = false := by
  have h : str "Email service error: " = 69 :: str "mail service error: " := by decide
  rw [h]
  simp

/-- C1 (amended): in the Pages function, when the owner send succeeds the
response is 200 ok even though the submitter confirmation send fails —
on either provider; in the SMTP handler, a rejected confirmation send is
caught by the shared `catch` and the response is a 500 error. -/
theorem c1_best_effort (env : EnvCF) (o : OracleCF) (b : Option Body) (c : Clean)
    (hv : validateCF b = Except.ok c)
    (h1 : o.resendOwnerOk = true)
    (h2 : o.resendSenderOk = false)
    (h3 : o.mcOwnerOk = true)
    (h4 : o.mcSenderOk = false)
    (hd : mcDomainOk (fromEmailOf env) = true)
    (envS : EnvSMTP) (oS : OracleSMTP) (bS : Body) (cS : Clean)
    (hvS : validateSMTP bS = Except.ok cS)
    (htrapS : (trim (trapOf bS)).isEmpty = true)
    (hsS : hasSmtpOf envS = true)
    (hverS : oS.verifyThrows = false)
    (hOwS : oS.ownerThrows = false)
    (hSeS : oS.senderThrows = true) :
    (onRequestPostCF env o b).1 =
      ⟨200, .jsonOk (str "Message received! Check your email for confirmation.")⟩ ∧
    (handlerSMTP envS oS (str "POST") bS).1 =
      ⟨500, .jsonErr (str "Failed to send message. Please try again later.")⟩ := by
  constructor
  · simp only [onRequestPostCF, hv]
    rw [orchestrateCF, ownerEmailOf_isEmpty_false env, if_neg (by simp)]
    cases hk : resendKeyOf env with
    | some k =>
      simp [sendTransactionalViaResend, h1]
    | none =>
      simp [sendTransactionalViaMailChannels, fromEmailOf_isEmpty_false env, hd, h3]
  · rw [handlerSMTP, hvS]
    rw [if_neg (by simp), if_neg (by simp [htrapS])]
    simp [hsS, hverS, hOwS, hSeS]

/-- C1 counterexample against the claim as stated: in the SMTP handler
the owner send succeeds and the confirmation send rejects, yet the
response is a 500 failure, not a success. -/
theorem c1_counterexample :
    oracleSenderFails.ownerThrows = false ∧
    oracleSenderFails.senderThrows = true ∧
    handlerSMTP envSmtpOn oracleSenderFails (str "POST") bodyJo =
      (⟨500, .jsonErr (str "Failed to send message. Please try again later.")⟩,
       [⟨.smtp, .owner, str "official@dhruvilthummar.me"⟩,
        ⟨.smtp, .sender, str "jo@x.com"⟩]) := by
  refine ⟨rfl, rfl, by rfl⟩

/-- C1 witness: concrete inputs for both halves. -/
theorem c1_witness :
    (onRequestPostCF envResendTo oracleConfirmFails (some bodyJo)).1 =
      ⟨200, .jsonOk (str "Message received! Check your email for confirmation.")⟩ ∧
    (handlerSMTP envSmtpOn oracleSenderFails (str "POST") bodyJo).1 =
      ⟨500, .jsonErr (str "Failed to send message. Please try again later.")⟩ :=
  c1_best_effort envResendTo oracleConfirmFails (some bodyJo) cleanJo (by rfl)
    rfl rfl rfl rfl (by decide)
    envSmtpOn oracleSenderFails bodyJo cleanJo (by rfl) (by rfl) rfl rfl rfl rfl

/-- C3 (amended): when the Resend owner send fails and a Resend key is
configured (the MailChannels fallback needs no credential, only a usable
sender domain, which the default sender address has), exactly one
additional owner send is attempted, on MailChannels, before any result:
if it also fails the result is a 502 failure carrying the FALLBACK
error detail of the FALLBACK provider (the detail of the primary is only logged) and no
submitter confirmation is attempted; if it succeeds, the confirmation is
attempted on MailChannels. -/
theorem c3_fallback (env : EnvCF) (o : OracleCF) (c : Clean)
    (hk : (resendKeyOf env).isSome = true)
    (h1 : o.resendOwnerOk = false)
    (hd : mcDomainOk (fromEmailOf env) = true) :
    mcOwnerCount (orchestrateCF env o c).2 = 1 ∧
    (o.mcOwnerOk = false →
      (orchestrateCF env o c).1 =
        ⟨502, .jsonErr (str "Email delivery failed: " ++
          (str "Email service error: " ++ o.mcOwnerStatusText ++
           str ". Please try again later."))⟩ ∧
      (orchestrateCF env o c).2 =
        [⟨.resend, .owner, ownerEmailOf env⟩,
         ⟨.mailchannels, .owner, ownerEmailOf env⟩] ∧
      senderCount (orchestrateCF env o c).2 = 0) ∧
    (o.mcOwnerOk = true →
      (orchestrateCF env o c).2 =
        [⟨.resend, .owner, ownerEmailOf env⟩,
         ⟨.mailchannels, .owner, ownerEmailOf env⟩,
         ⟨.mailchannels, .sender, c.email⟩]) := by
  obtain ⟨k, hk'⟩ := Option.isSome_iff_exists.mp hk
  rw [orchestrateCF, ownerEmailOf_isEmpty_false env, hk']
  cases hmc : o.mcOwnerOk with
  | false =>
    simp [sendTransactionalViaResend, sendTransactionalViaMailChannels,
          h1, hmc, hd, fromEmailOf_isEmpty_false env, mcFailMsg_isEmpty_false,
          mcOwnerCount, senderCount, List.filter, isMcOwner, isSender]
    intro hA hB hC
    exact absurd hA (by decide)
  | true =>
    simp [sendTransactionalViaResend, sendTransactionalViaMailChannels,
          h1, hmc, hd, fromEmailOf_isEmpty_false env,
          mcOwnerCount, senderCount, List.filter, isMcOwner, isSender]

/-- C3 counterexample against the claim as stated: a concrete double
failure — Resend owner send fails with detail `resend boom`, MailChannels
owner send fails with statusText `Bad Gateway`.  The 502 response carries
only the MailChannels detail: the primary detail `resend boom` does not occur
in the response error, so the result does not carry the error details of
error details. -/
theorem c3_counterexample :
    onRequestPostCF envResendTo oracleBothFail (some bodyJo) =
      (⟨502, .jsonErr (str "Email delivery failed: Email service error: Bad Gateway. Please try again later.")⟩,
       [⟨.resend, .owner, str "owner@x.com"⟩,
        ⟨.mailchannels, .owner, str "owner@x.com"⟩]) ∧
    containsSub (str "resend boom")
      (str "Email delivery failed: Email service error: Bad Gateway. Please try again later.") = false := by
  refine ⟨by rfl, by decide⟩

/-- C3 witness: the concrete double failure discharges the hypotheses. -/
theorem c3_witness :
    mcOwnerCount (orchestrateCF envResendTo oracleBothFail cleanJo).2 = 1 ∧
    (orchestrateCF envResendTo oracleBothFail cleanJo).1 =
      ⟨502, .jsonErr (str "Email delivery failed: " ++
        (str "Email service error: " ++ str "Bad Gateway" ++
         str ". Please try again later."))⟩ ∧
    senderCount (orchestrateCF envResendTo oracleBothFail cleanJo).2 = 0 := by
  have h := c3_fallback envResendTo oracleBothFail cleanJo (by decide) rfl (by decide)
  exact ⟨h.1, (h.2.1 rfl).1, (h.2.1 rfl).2.2⟩

end ContactForm
